import Mathlib

/-!
# Verification of the QEnergic microgrid-placement optimizer core

Shallow embedding of the repository's core algorithms over `ℚ`:

* the NAR greedy budget solver `narGreedyBudget` (src/pages/index.js and the
  mesh-mode optimize handler),
* the custom simulated-annealing QUBO solver `simulatedAnnealingQUBO`
  (both optimize handlers), with the ambient randomness made explicit as an
  index stream `moves` and a Metropolis-draw outcome stream `draws`,
* the QUBO matrix construction (`quboQ` for the dataset-filter handler,
  `meshQuboQ` for the mesh handler),
* the `quboOnly` downsampling of candidates and matrix,
* the defensive stdout parsing of the external-solver bridges
  (`quantumParse` for the quantum_optimize route, `gurobiParse` for
  `gurobiQUBOBudget`), with a process-output line abstracted as either a
  structurally valid result record or a non-record logging line,
* both HTTP handlers (`filterHandler`, `meshHandler`), with the external
  collaborators (turf point-in-polygon, great-circle distance, the three
  solver backends) passed in as function parameters.

JavaScript numbers are modelled as exact rationals, JS `undefined`-able
request fields as `Option`, and the `Infinity` initial best energy of the
annealer as `Option ℚ` (`none` = `Infinity`).
-/

namespace QEnergic

/-- A mesh-mode candidate grid cell (part_001 `candidates.push({lat, lng, cost,
energy, dist})`); `pop` is `none` because mesh candidates are pushed without a
`pop` field, and the QUBO build reads `c.pop ?? 1`. -/
structure Candidate where
  lat : ℚ := 0
  lng : ℚ := 0
  cost : ℚ := 0
  energy : ℚ := 0
  dist : ℚ := 0
  pop : Option ℚ := none
deriving Repr, DecidableEq, Inhabited

/-- A dataset site record as produced by data_generator.js. -/
structure Site where
  X_coord : ℚ := 0
  Y_coord : ℚ := 0
  Installation_Cost_USD : ℚ := 0
  Population_Coverage : ℚ := 0
  Energy_Capacity_kWh_day : ℚ := 0
deriving Repr, DecidableEq, Inhabited

/-- A filter-mode candidate: a dataset site plus the derived distance to the
population center (index.js `{...site, dist}`). -/
structure FCand where
  site : Site := default
  dist : ℚ := 0
deriving Repr, DecidableEq, Inhabited

/-- A geographic point `{lat, lng}`. -/
structure Pt where
  lat : ℚ := 0
  lng : ℚ := 0
deriving Repr, DecidableEq, Inhabited

/-- A mesh cell profile (`cellSize` in the mesh handler): `{price, energy}`. -/
structure CellSize where
  price : ℚ := 0
  energy : ℚ := 0
deriving Repr, DecidableEq, Inhabited

/-! ## GreedySolver (`narGreedyBudget`) -/

/-- The ranking key `candidates[i].energy / candidates[i].cost`. -/
def ratio (c : Candidate) : ℚ := c.energy / c.cost

/-- Insert index `a` into an already-ranked index list, keeping descending
`r`-order and placing `a` after every earlier index with an equal or larger
key.  Together with `sortIdxByRatio` this is the stable descending sort
performed by `idxs.sort((a, b) => ratio(b) - ratio(a))` (JS `Array.sort` is
stable). -/
def insertByRatio (r : ℕ → ℚ) (a : ℕ) : List ℕ → List ℕ
  | [] => [a]
  | b :: t => if r a ≤ r b then b :: insertByRatio r a t else a :: b :: t

/-- Stable descending sort by the key `r`, inserting indices in list order. -/
def sortIdxByRatio (r : ℕ → ℚ) (l : List ℕ) : List ℕ :=
  l.foldl (fun acc a => insertByRatio r a acc) []

/-- The ranked index list of `narGreedyBudget`:
`candidates.map((c, i) => i).sort((a, b) => eb/cb - ea/ca)`. -/
def narIdxs (cands : List Candidate) : List ℕ :=
  sortIdxByRatio (fun i => ratio (cands.getD i default)) (List.range cands.length)

/-- The greedy acceptance loop of `narGreedyBudget`: walk the ranked index
list, accept an index when the running total plus its cost stays within
budget, otherwise skip it; returns the accepted indices (in acceptance order)
and the final running total. -/
def greedyGo (cands : List Candidate) (budget : ℚ) :
    List ℕ → ℚ → List ℕ → List ℕ × ℚ
  | [], _total, selected => (selected, _total)
  | i :: rest, total, selected =>
    if total + (cands.getD i default).cost ≤ budget then
      greedyGo cands budget rest (total + (cands.getD i default).cost) (selected ++ [i])
    else
      greedyGo cands budget rest total selected

/-- `narGreedyBudget(Q, candidates, budget)`: the Q argument is accepted but
never read by the source function.  Returns the 0/1 selection vector
`candidates.map((_, i) => selected.includes(i) ? 1 : 0)`. -/
def narGreedyBudget (Q : ℕ → ℕ → ℚ) (cands : List Candidate) (budget : ℚ) : List ℕ :=
  let p := greedyGo cands budget (narIdxs cands) 0 []
  (List.range cands.length).map (fun i => if i ∈ p.1 then 1 else 0)

/-- Total installation cost of the candidates selected by a 0/1 vector. -/
def selectionCost (cands : List Candidate) (x : List ℕ) : ℚ :=
  ∑ i ∈ Finset.range cands.length,
    if x.getD i 0 = 1 then (cands.getD i default).cost else 0

/-- The descending rank order with stable ties: index `a` precedes index `b`
when its key is strictly larger, or the keys tie and `a` is the smaller
original index. -/
def rankOrd (r : ℕ → ℚ) (a b : ℕ) : Prop := r b < r a ∨ (r a = r b ∧ a < b)

/-- Scenario B of the spec: three candidates with costs `[10, 20, 15]` and
energies `[5, 8, 6]`. -/
def scenarioB : List Candidate :=
  [{ cost := 10, energy := 5 }, { cost := 20, energy := 8 }, { cost := 15, energy := 6 }]

/-! ## AnnealingSolver (`simulatedAnnealingQUBO`) -/

/-- A selected bit as a rational factor. -/
def boolToQ (b : Bool) : ℚ := if b then 1 else 0

/-- The annealer's energy function: `xᵀQx` plus
`costPenalty * (cost - budget)²` when the selected cost exceeds the budget,
with `costPenalty = 10000 / budget`. -/
def saEnergy (Q : ℕ → ℕ → ℚ) (n : ℕ) (cands : List Candidate) (budget : ℚ)
    (x : List Bool) : ℚ :=
  let e := ∑ i ∈ Finset.range n, ∑ j ∈ Finset.range n,
    Q i j * boolToQ (x.getD i false) * boolToQ (x.getD j false)
  let cost := ∑ i ∈ Finset.range n,
    if x.getD i false then (cands.getD i default).cost else 0
  if budget < cost then e + (10000 / budget) * (cost - budget) ^ 2 else e

/-- `e2 < bestE` where `bestE` starts at JS `Infinity` (modelled `none`). -/
def bestUpd : Option ℚ → ℚ → Bool
  | none, _ => true
  | some b, e2 => decide (e2 < b)

/-- One run of the annealing loop, instrumented: besides the returned
best-known vector it also collects the list of *accepted* states, in order.
`moves iter` is the random bit index flipped at iteration `iter`; `draws iter`
is the outcome of the Metropolis comparison
`Math.random() < Math.exp((e1 - e2) / T)` (any Boolean outcome is realizable
whenever the comparison is reached, since `exp` is positive, and `≤ 1` exactly
when `e1 ≤ e2`).  Cooling multiplies `T` by `coolRate` each iteration and the
loop breaks when `T` drops below `1e-6`. -/
def saLoop (Q : ℕ → ℕ → ℚ) (n : ℕ) (cands : List Candidate) (budget : ℚ)
    (coolRate : ℚ) (moves : ℕ → ℕ) (draws : ℕ → Bool) :
    ℕ → ℕ → List Bool → List Bool → Option ℚ → ℚ → List Bool × List (List Bool)
  | 0, _, _, bestX, _, _ => (bestX, [])
  | fuel + 1, iter, x, bestX, bestE, T =>
    let x2 := x.set (moves iter) (! x.getD (moves iter) false)
    let e1 := saEnergy Q n cands budget x
    let e2 := saEnergy Q n cands budget x2
    if e2 < e1 ∨ draws iter = true then
      let bestX2 := if bestUpd bestE e2 then x2 else bestX
      let bestE2 := if bestUpd bestE e2 then some e2 else bestE
      if T * coolRate < 1 / 1000000 then (bestX2, [x2])
      else
        let r := saLoop Q n cands budget coolRate moves draws fuel (iter + 1) x2 bestX2 bestE2 (T * coolRate)
        (r.1, x2 :: r.2)
    else
      if T * coolRate < 1 / 1000000 then (bestX, [])
      else saLoop Q n cands budget coolRate moves draws fuel (iter + 1) x bestX bestE (T * coolRate)

/-- A full annealing run from the all-zero state with `bestE = Infinity`,
returning the best-known vector together with the accepted-state trace. -/
def saRun (Q : ℕ → ℕ → ℚ) (n : ℕ) (cands : List Candidate) (budget : ℚ)
    (maxIter : ℕ) (T0 coolRate : ℚ) (moves : ℕ → ℕ) (draws : ℕ → Bool) :
    List Bool × List (List Bool) :=
  saLoop Q n cands budget coolRate moves draws maxIter 0
    (List.replicate n false) (List.replicate n false) none T0

/-- `simulatedAnnealingQUBO` proper: just the returned best-known vector. -/
def simulatedAnnealingQUBO (Q : ℕ → ℕ → ℚ) (n : ℕ) (cands : List Candidate)
    (budget : ℚ) (maxIter : ℕ) (T0 coolRate : ℚ) (moves : ℕ → ℕ)
    (draws : ℕ → Bool) : List Bool :=
  (saRun Q n cands budget maxIter T0 coolRate moves draws).1

/-! ## QUBOBuilder -/

/-- The QUBO matrix entry built by the dataset-filter handler
(src/pages/index.js): diagonal objective + penalty self-terms, doubled
off-diagonal cross-terms written to both `Q[i][j]` and `Q[j][i]`, and the
constant offset `th*B² + mu*K² + la*M²` added onto `Q[0][0]`. -/
def quboQ (C P E : ℕ → ℚ) (B K M al ga th mu la : ℚ) (i j : ℕ) : ℚ :=
  if i = j then
    C i - al * P i - ga * E i
      + th * ((C i) ^ 2 - 2 * B * C i)
      + mu * (1 - 2 * K)
      + la * ((P i) ^ 2 - 2 * M * P i)
      + (if i = 0 then th * B ^ 2 + mu * K ^ 2 + la * M ^ 2 else 0)
  else
    2 * th * C i * C j + 2 * mu + 2 * la * P i * P j

/-- The QUBO matrix entry built by the mesh-mode handler (part_001); same
construction stated in that file's accumulation order, with no
energy-capacity term. -/
def meshQuboQ (C P : ℕ → ℚ) (B K M al th mu la : ℚ) (i j : ℕ) : ℚ :=
  if i = j then
    C i + th * (C i) ^ 2 + mu + la * (P i) ^ 2 - al * P i
      + (-(2 * th * B * C i)) + (-(2 * mu * K)) + (-(2 * la * M * P i))
      + (if i = 0 then th * B ^ 2 + mu * K ^ 2 + la * M ^ 2 else 0)
  else
    2 * th * C i * C j + 2 * mu + 2 * la * P i * P j

/-- The quadratic form `xᵀQx` over the first `n` coordinates. -/
def quadForm (Q : ℕ → ℕ → ℚ) (n : ℕ) (x : ℕ → ℚ) : ℚ :=
  ∑ i ∈ Finset.range n, ∑ j ∈ Finset.range n, Q i j * x i * x j

/-- The value claimed for `xᵀQx` by the spec (claim C1 wording): objective
plus the three squared soft-penalty terms. -/
def quboSpecValue (C P E : ℕ → ℚ) (B K M al ga th mu la : ℚ) (n : ℕ)
    (x : ℕ → ℚ) : ℚ :=
  (∑ i ∈ Finset.range n, C i * x i)
    - al * (∑ i ∈ Finset.range n, P i * x i)
    - ga * (∑ i ∈ Finset.range n, E i * x i)
    + th * ((∑ i ∈ Finset.range n, C i * x i) - B) ^ 2
    + mu * ((∑ i ∈ Finset.range n, x i) - K) ^ 2
    + la * (M - (∑ i ∈ Finset.range n, P i * x i)) ^ 2

/-- The ordered off-diagonal cross sum `∑_{i ≠ j} (f i·x i)·(f j·x j)`. -/
def crossSum (f x : ℕ → ℚ) (n : ℕ) : ℚ :=
  ∑ i ∈ Finset.range n, ∑ j ∈ (Finset.range n).erase i, (f i * x i) * (f j * x j)

/-- The n×n matrix, as a list of rows, filled from an entry function. -/
def quboMatList (n : ℕ) (entry : ℕ → ℕ → ℚ) : List (List ℚ) :=
  (List.range n).map (fun i => (List.range n).map (fun j => entry i j))

/-! ## `quboOnly` downsampling -/

/-- `arr.filter((_, i) => i % k === 0)`. -/
def idxStride (k : ℕ) (l : List α) : List α :=
  (l.enum.filter (fun p => p.1 % k == 0)).map Prod.snd

/-- `candidates.filter((_, i) => i % k === 0).slice(0, cap)`. -/
def reducedCands (cap k : ℕ) (l : List α) : List α := (idxStride k l).take cap

/-- `reducedCandidates.map((_, i) => reducedCandidates.map((_, j) =>
Q[i*k]?.[j*k] ?? 0))`. -/
def reducedQ (Q : List (List ℚ)) (k : ℕ) (rc : List α) : List (List ℚ) :=
  rc.mapIdx (fun i _ => rc.mapIdx (fun j _ => (Q.getD (i * k) []).getD (j * k) 0))

/-! ## ExternalSolverBridge output parsing -/

/-- One line of external-solver stdout, abstracted: either a structurally
valid result record (JSON with `selected_indices`) or non-record logging
output on which `JSON.parse` fails. -/
inductive OutLine where
  | record (selected : List ℕ)
  | log (s : String)
deriving Repr, DecidableEq

/-- `JSON.parse` of a single line: succeeds exactly on a result record. -/
def parseLine : OutLine → Option (List ℕ)
  | .record sel => some sel
  | .log _ => none

/-- quantum_optimize bridge parsing: scan lines from the last backward until
one parses (`for (let i = lines.length - 1; i >= 0; i--) try {...} `). -/
def quantumParse (lines : List OutLine) : Option (List ℕ) :=
  lines.reverse.findSome? parseLine

/-- `gurobiQUBOBudget` parsing: `JSON.parse(out.trim().split('\n').pop())` —
only the final line is ever parsed. -/
def gurobiParse (lines : List OutLine) : Option (List ℕ) :=
  lines.getLast?.bind parseLine

/-! ## The two optimize handlers -/

/-- The response of an optimize route: 400 invalid input, 200 grids,
200 QUBO export, or 500 solver error. -/
inductive ApiRes (g : Type) (k : Type) where
  | invalid
  | grids (gs : List g)
  | qubo (Q : List (List ℚ)) (cands : List k) (budget : ℚ)
  | error (msg : String)
deriving DecidableEq

/-- The request body of the dataset-filter handler (src/pages/index.js).
`K`/`M` are read by the source into two unused constants; `maxGrids` and
`minPopulation` are the `max_grids` / `min_population` fields actually used. -/
structure FilterReq where
  polygon : Option (List Pt)
  budget : Option ℚ
  popCenter : Option Pt
  quboOnly : Bool
  algo : String
  K : Option ℚ := none
  M : Option ℚ := none
  maxGrids : Option ℚ := none
  minPopulation : Option ℚ := none

/-- The request body of the mesh-mode handler (part_001). -/
structure MeshReq where
  polygon : Option (List Pt)
  budget : Option ℚ
  gridArea : Option ℚ
  cellSize : Option CellSize
  country : Option String
  popCenter : Option Pt
  quboOnly : Bool
  algo : String
  K : Option ℚ := none
  M : Option ℚ := none

/-- Close the polygon: `[...polygon.map(p => [p.lng, p.lat]),
[polygon[0].lng, polygon[0].lat]]`. -/
def closeCoords (poly : List Pt) : List (ℚ × ℚ) :=
  poly.map (fun p => (p.lng, p.lat)) ++ [((poly.getD 0 default).lng, (poly.getD 0 default).lat)]

/-- index.js input validation:
`!polygon || polygon.length !== 4 || !budget || budget <= 0 || !popCenter`. -/
def filterInvalidB (r : FilterReq) : Bool :=
  (match r.polygon with | none => true | some p => decide (p.length ≠ 4))
    || (match r.budget with | none => true | some b => decide (b ≤ 0))
    || r.popCenter.isNone

/-- Mesh handler input validation: additionally `gridArea <= 0 || !cellSize ||
!country` (a *missing* `gridArea` compares as `undefined <= 0`, which is
false in JS, hence `none ↦ false`). -/
def meshInvalidB (r : MeshReq) : Bool :=
  (match r.polygon with | none => true | some p => decide (p.length ≠ 4))
    || (match r.budget with | none => true | some b => decide (b ≤ 0))
    || (match r.gridArea with | none => false | some g2 => decide (g2 ≤ 0))
    || r.cellSize.isNone
    || r.country.isNone
    || r.popCenter.isNone

/-- Filter-mode candidate generation: keep dataset sites inside the polygon
and attach the distance to the population center.  The point-in-polygon test
and the great-circle distance are the external turf collaborators, passed as
`inPoly` and `dist`. -/
def filterCandidates (sites : List Site)
    (inPoly : List (ℚ × ℚ) → ℚ × ℚ → Bool) (dist : ℚ × ℚ → ℚ × ℚ → ℚ)
    (coords : List (ℚ × ℚ)) (pc : Pt) : List FCand :=
  (sites.filter (fun s => inPoly coords (s.X_coord, s.Y_coord))).map
    (fun s => ⟨s, dist (s.X_coord, s.Y_coord) (pc.lng, pc.lat)⟩)

/-- `Math.min(...)` over a list (the handler applies it to the five closed
polygon coordinates, never empty). -/
def jsMin : List ℚ → ℚ
  | [] => 0
  | a :: t => t.foldl min a

/-- `Math.max(...)` over a list. -/
def jsMax : List ℚ → ℚ
  | [] => 0
  | a :: t => t.foldl max a

/-- `Math.ceil(Math.sqrt(m))` for a natural argument. -/
def ceilSqrt (m : ℕ) : ℕ :=
  if Nat.sqrt m * Nat.sqrt m = m then Nat.sqrt m else Nat.sqrt m + 1

/-- Mesh-mode candidate generation: a `steps × steps` grid of cell centers
over the bounding box of the closed polygon, keeping points inside the
polygon, where `steps = ceil(sqrt(max(20, floor(budget / price) * 5)))`. -/
def meshCandidates (coords : List (ℚ × ℚ)) (cs : CellSize) (budget : ℚ)
    (pc : Pt) (inPoly : List (ℚ × ℚ) → ℚ × ℚ → Bool)
    (dist : ℚ × ℚ → ℚ × ℚ → ℚ) : List Candidate :=
  let nCand := max 20 ((budget / cs.price).floor.toNat * 5)
  let minLng := jsMin (coords.map Prod.fst)
  let minLat := jsMin (coords.map Prod.snd)
  let maxLng := jsMax (coords.map Prod.fst)
  let maxLat := jsMax (coords.map Prod.snd)
  let steps := ceilSqrt nCand
  (List.range steps).bind (fun i => (List.range steps).filterMap (fun j =>
    let lat := minLat + (maxLat - minLat) * ((i : ℚ) + 1 / 2) / (steps : ℚ)
    let lng := minLng + (maxLng - minLng) * ((j : ℚ) + 1 / 2) / (steps : ℚ)
    if inPoly coords (lng, lat) then
      some ⟨lat, lng, cs.price, cs.energy, dist (lng, lat) (pc.lng, pc.lat), none⟩
    else none))

/-- One returned grid of the filter handler:
`{lat: Y, lng: X, cost, energy, dist, pop}`. -/
structure GridOut where
  lat : ℚ
  lng : ℚ
  cost : ℚ
  energy : ℚ
  dist : ℚ
  pop : ℚ
deriving Repr, DecidableEq

/-- One returned grid of the mesh handler: `{lat, lng, cost, energy, dist}`. -/
structure MGrid where
  lat : ℚ
  lng : ℚ
  cost : ℚ
  energy : ℚ
  dist : ℚ
deriving Repr, DecidableEq

/-- `candidates.filter((c, i) => x[i]).map(...)` for the filter handler. -/
def mkFilterGrids (cands : List FCand) (x : List ℕ) : ApiRes GridOut FCand :=
  .grids ((cands.mapIdx (fun i c => (i, c))).filterMap (fun p =>
    if x.getD p.1 0 ≠ 0 then
      some ⟨p.2.site.Y_coord, p.2.site.X_coord, p.2.site.Installation_Cost_USD,
        p.2.site.Energy_Capacity_kWh_day, p.2.dist, p.2.site.Population_Coverage⟩
    else none))

/-- `candidates.filter((c, i) => x[i]).map(...)` for the mesh handler. -/
def mkMeshGrids (cands : List Candidate) (x : List ℕ) : ApiRes MGrid Candidate :=
  .grids ((cands.mapIdx (fun i c => (i, c))).filterMap (fun p =>
    if x.getD p.1 0 ≠ 0 then
      some ⟨p.2.lat, p.2.lng, p.2.cost, p.2.energy, p.2.dist⟩
    else none))

/-- The dataset-filter optimize handler (src/pages/index.js), with the site
dataset, the turf geometry functions and the three solver backends as
parameters.  The number-typed weights `1e-1, 1e-1, 1e-6, 2, 1e-2` and the
defaults `max_grids = 10`, `min_population = 15000` are the source constants. -/
def filterHandler (sites : List Site)
    (inPoly : List (ℚ × ℚ) → ℚ × ℚ → Bool) (dist : ℚ × ℚ → ℚ × ℚ → ℚ)
    (gre : List (List ℚ) → List FCand → ℚ → List ℕ)
    (gur : List (List ℚ) → List FCand → ℚ → Except String (List ℕ))
    (sa : List (List ℚ) → List FCand → ℚ → List ℕ)
    (r : FilterReq) : ApiRes GridOut FCand :=
  if filterInvalidB r then .invalid
  else
    let poly := r.polygon.getD []
    let budget := r.budget.getD 0
    let pc := r.popCenter.getD default
    let coords := closeCoords poly
    let cands := filterCandidates sites inPoly dist coords pc
    if cands.length = 0 then .grids []
    else
      let n := cands.length
      let C := fun i => (cands.getD i default).site.Installation_Cost_USD
      let P := fun i => (cands.getD i default).site.Population_Coverage
      let E := fun i => (cands.getD i default).site.Energy_Capacity_kWh_day
      let maxGrids := r.maxGrids.getD 10
      let minPop := r.minPopulation.getD 15000
      let Qm := quboMatList n (quboQ C P E budget maxGrids minPop (1/10) (1/10) (1/1000000) 2 (1/100))
      if r.quboOnly then
        if 1000 < n then
          let k := (n + 1000 - 1) / 1000
          .qubo (reducedQ Qm k (reducedCands 1000 k cands)) (reducedCands 1000 k cands) budget
        else .qubo Qm cands budget
      else
        if r.algo = "nar" then mkFilterGrids cands (gre Qm cands budget)
        else if r.algo = "gurobi" then
          match gur Qm cands budget with
          | .ok x => mkFilterGrids cands x
          | .error e => .error ("Gurobi optimization failed: " ++ e)
        else mkFilterGrids cands (sa Qm cands budget)

/-- The mesh-mode optimize handler (part_001), weights `1, 1000, 1000, 1000`,
defaults `K = floor(budget / price)`, `M = 0`, `P_i = pop ?? 1`. -/
def meshHandler (inPoly : List (ℚ × ℚ) → ℚ × ℚ → Bool)
    (dist : ℚ × ℚ → ℚ × ℚ → ℚ)
    (gre : List (List ℚ) → List Candidate → ℚ → List ℕ)
    (gur : List (List ℚ) → List Candidate → ℚ → Except String (List ℕ))
    (sa : List (List ℚ) → List Candidate → ℚ → List ℕ)
    (r : MeshReq) : ApiRes MGrid Candidate :=
  if meshInvalidB r then .invalid
  else
    let poly := r.polygon.getD []
    let budget := r.budget.getD 0
    let cs := r.cellSize.getD default
    let pc := r.popCenter.getD default
    let coords := closeCoords poly
    let cands := meshCandidates coords cs budget pc inPoly dist
    if cands.length = 0 then .grids []
    else
      let n := cands.length
      let C := fun i => (cands.getD i default).cost
      let P := fun i => ((cands.getD i default).pop).getD 1
      let K := r.K.getD ((budget / cs.price).floor : ℚ)
      let M := r.M.getD 0
      let Qm := quboMatList n (meshQuboQ C P budget K M 1 1000 1000 1000)
      if r.quboOnly then
        if 1000 < n then
          let k := (n + 1000 - 1) / 1000
          .qubo (reducedQ Qm k (reducedCands 1000 k cands)) (reducedCands 1000 k cands) budget
        else .qubo Qm cands budget
      else
        if r.algo = "nar" then mkMeshGrids cands (gre Qm cands budget)
        else if r.algo = "gurobi" then
          match gur Qm cands budget with
          | .ok x => mkMeshGrids cands x
          | .error e => .error ("Gurobi optimization failed: " ++ e)
        else mkMeshGrids cands (sa Qm cands budget)

/-! ## Helper lemmas -/

theorem findSome?_isSome_of_mem {α β : Type} (p : α → Option β) :
    ∀ (L : List α) (a : α), a ∈ L → (p a).isSome → (L.findSome? p).isSome := by
  intro L
  induction L with
  | nil => intro a ha; simp at ha
  | cons b t ih =>
    intro a ha hsome
    rw [List.findSome?_cons]
    rcases List.mem_cons.mp ha with rfl | hmem
    · cases h : p a with
      | none => rw [h] at hsome; simp at hsome
      | some v => simp
    · cases h : p b with
      | none => exact ih a hmem hsome
      | some v => simp

theorem mem_insertByRatio (r : ℕ → ℚ) (a x : ℕ) :
    ∀ l : List ℕ, (x ∈ insertByRatio r a l ↔ x = a ∨ x ∈ l) := by
  intro l
  induction l with
  | nil => simp [insertByRatio]
  | cons b t ih =>
    rw [insertByRatio]
    split_ifs with h
    · rw [List.mem_cons, ih, List.mem_cons]; tauto
    · rw [List.mem_cons, List.mem_cons]

theorem insertByRatio_perm (r : ℕ → ℚ) (a : ℕ) :
    ∀ l : List ℕ, (insertByRatio r a l).Perm (a :: l) := by
  intro l
  induction l with
  | nil => exact List.Perm.refl _
  | cons b t ih =>
    rw [insertByRatio]
    split_ifs with h
    · exact (ih.cons b).trans (List.Perm.swap a b t)
    · exact List.Perm.refl _

theorem sortFold_perm (r : ℕ → ℚ) :
    ∀ (l acc : List ℕ),
      (l.foldl (fun acc a => insertByRatio r a acc) acc).Perm (acc ++ l) := by
  intro l
  induction l with
  | nil => intro acc; simp
  | cons a t ih =>
    intro acc
    rw [List.foldl_cons]
    refine (ih (insertByRatio r a acc)).trans ?_
    have h2 : (insertByRatio r a acc ++ t).Perm ((a :: acc) ++ t) :=
      (insertByRatio_perm r a acc).append_right t
    exact h2.trans List.perm_middle.symm

theorem sortIdxByRatio_perm (r : ℕ → ℚ) (l : List ℕ) :
    (sortIdxByRatio r l).Perm l := by
  simpa [sortIdxByRatio] using sortFold_perm r l []

theorem narIdxs_perm (cands : List Candidate) :
    (narIdxs cands).Perm (List.range cands.length) :=
  sortIdxByRatio_perm _ _

theorem insertByRatio_pairwise (r : ℕ → ℚ) (a : ℕ) :
    ∀ acc : List ℕ, acc.Pairwise (rankOrd r) → (∀ b ∈ acc, b < a) →
      (insertByRatio r a acc).Pairwise (rankOrd r) := by
  intro acc
  induction acc with
  | nil => intro _ _; simp [insertByRatio]
  | cons b t ih =>
    intro hp hlt
    rw [insertByRatio]
    split_ifs with h
    · rw [List.pairwise_cons] at hp ⊢
      obtain ⟨hbt, hpt⟩ := hp
      refine ⟨?_, ih hpt (fun c hc => hlt c (by simp [hc]))⟩
      intro c hc
      rcases (mem_insertByRatio r a c t).mp hc with rfl | hct
      · rcases lt_or_eq_of_le h with hlt2 | heq
        · exact Or.inl hlt2
        · exact Or.inr ⟨heq.symm, hlt b (by simp)⟩
      · exact hbt c hct
    · push_neg at h
      rw [List.pairwise_cons]
      refine ⟨?_, hp⟩
      intro c hc
      rcases List.mem_cons.mp hc with rfl | hct
      · exact Or.inl h
      · rcases (List.pairwise_cons.mp hp).1 c hct with h2 | ⟨h2, _⟩
        · exact Or.inl (h2.trans h)
        · exact Or.inl (h2 ▸ h)

theorem sortFold_pairwise (r : ℕ → ℚ) :
    ∀ (l acc : List ℕ), l.Pairwise (· < ·) →
      (∀ a ∈ l, ∀ b ∈ acc, b < a) → acc.Pairwise (rankOrd r) →
      (l.foldl (fun acc a => insertByRatio r a acc) acc).Pairwise (rankOrd r) := by
  intro l
  induction l with
  | nil => intro acc _ _ hacc; simpa using hacc
  | cons a t ih =>
    intro acc hl hcross hacc
    rw [List.foldl_cons]
    rw [List.pairwise_cons] at hl
    apply ih _ hl.2
    · intro a2 ha2 b hb
      rcases (mem_insertByRatio r a b acc).mp hb with rfl | hbacc
      · exact hl.1 a2 ha2
      · exact hcross a2 (by simp [ha2]) b hbacc
    · exact insertByRatio_pairwise r a acc hacc (fun b hb => hcross a (by simp) b hb)

theorem narIdxs_pairwise (cands : List Candidate) :
    (narIdxs cands).Pairwise (rankOrd (fun i => ratio (cands.getD i default))) := by
  rw [narIdxs, sortIdxByRatio]
  exact sortFold_pairwise _ _ [] (List.pairwise_lt_range _) (by simp) (by simp)

theorem greedyGo_spec (cands : List Candidate) (budget : ℚ) :
    ∀ (L : List ℕ) (total : ℚ) (sel : List ℕ),
      ∃ d : List ℕ,
        (greedyGo cands budget L total sel).1 = sel ++ d
        ∧ d.Sublist L
        ∧ (greedyGo cands budget L total sel).2
            = total + (d.map (fun i => (cands.getD i default).cost)).sum
        ∧ (total ≤ budget → (greedyGo cands budget L total sel).2 ≤ budget) := by
  intro L
  induction L with
  | nil =>
    intro total sel
    exact ⟨[], by simp [greedyGo], List.nil_sublist _, by simp [greedyGo],
      fun h => by simpa [greedyGo] using h⟩
  | cons i rest ih =>
    intro total sel
    simp only [greedyGo]
    split_ifs with h
    · obtain ⟨d, h1, h2, h3, h4⟩ := ih (total + (cands.getD i default).cost) (sel ++ [i])
      refine ⟨i :: d, ?_, List.Sublist.cons₂ i h2, ?_, fun _ => h4 h⟩
      · rw [h1]; simp
      · rw [h3]; simp; ring
    · obtain ⟨d, h1, h2, h3, h4⟩ := ih total sel
      exact ⟨d, h1, h2.cons i, h3, h4⟩

theorem greedyGo_append (cands : List Candidate) (budget : ℚ) :
    ∀ (A B : List ℕ) (t : ℚ) (s : List ℕ),
      greedyGo cands budget (A ++ B) t s
        = greedyGo cands budget B (greedyGo cands budget A t s).2
            (greedyGo cands budget A t s).1 := by
  intro A
  induction A with
  | nil => intro B t s; simp [greedyGo]
  | cons i rest ih =>
    intro B t s
    rw [List.cons_append]
    simp only [greedyGo]
    split_ifs with h <;> exact ih B _ _

theorem narGreedy_getD (Q : ℕ → ℕ → ℚ) (cands : List Candidate) (budget : ℚ)
    (i : ℕ) (hi : i < cands.length) :
    (narGreedyBudget Q cands budget).getD i 0
      = if i ∈ (greedyGo cands budget (narIdxs cands) 0 []).1 then 1 else 0 := by
  simp only [narGreedyBudget]
  rw [List.getD_eq_getElem?_getD, List.getElem?_map, List.getElem?_range hi]
  rfl

theorem sum_pairs_split (n : ℕ) (a : ℕ → ℕ → ℚ) :
    ∑ i ∈ Finset.range n, ∑ j ∈ Finset.range n, a i j
      = (∑ i ∈ Finset.range n, a i i)
        + ∑ i ∈ Finset.range n, ∑ j ∈ (Finset.range n).erase i, a i j := by
  rw [← Finset.sum_add_distrib]
  exact Finset.sum_congr rfl (fun i hi => (Finset.add_sum_erase _ (a i) hi).symm)

theorem sq_sum_binary (n : ℕ) (f x : ℕ → ℚ) (hx : ∀ i, i < n → x i = 0 ∨ x i = 1) :
    (∑ i ∈ Finset.range n, f i * x i) ^ 2
      = (∑ i ∈ Finset.range n, (f i) ^ 2 * x i) + crossSum f x n := by
  rw [sq, Finset.sum_mul_sum, crossSum,
    sum_pairs_split n (fun i j => (f i * x i) * (f j * x j))]
  congr 1
  refine Finset.sum_congr rfl (fun i hi => ?_)
  rcases hx i (Finset.mem_range.mp hi) with h | h <;> rw [h] <;> ring

theorem saLoop_best (Q : ℕ → ℕ → ℚ) (n : ℕ) (cands : List Candidate)
    (budget coolRate : ℚ) (moves : ℕ → ℕ) (draws : ℕ → Bool) :
    ∀ (fuel iter : ℕ) (x bestX : List Bool) (bestE : Option ℚ) (T : ℚ),
      (∀ b, bestE = some b → saEnergy Q n cands budget bestX = b) →
      (∀ s ∈ (saLoop Q n cands budget coolRate moves draws fuel iter x bestX bestE T).2,
          saEnergy Q n cands budget
              (saLoop Q n cands budget coolRate moves draws fuel iter x bestX bestE T).1
            ≤ saEnergy Q n cands budget s)
        ∧ ((saLoop Q n cands budget coolRate moves draws fuel iter x bestX bestE T).1 = bestX
            ∨ (saLoop Q n cands budget coolRate moves draws fuel iter x bestX bestE T).1
                ∈ (saLoop Q n cands budget coolRate moves draws fuel iter x bestX bestE T).2)
        ∧ (∀ b, bestE = some b →
            saEnergy Q n cands budget
                (saLoop Q n cands budget coolRate moves draws fuel iter x bestX bestE T).1 ≤ b) := by
  intro fuel
  induction fuel with
  | zero =>
    intro iter x bestX bestE T hb
    refine ⟨?_, Or.inl rfl, ?_⟩
    · intro s hs
      simp [saLoop] at hs
    · intro b hb2
      simp only [saLoop]
      exact le_of_eq (hb b hb2)
  | succ fuel ih =>
    intro iter x bestX bestE T hb
    simp only [saLoop]
    by_cases hacc : (saEnergy Q n cands budget
        (x.set (moves iter) (! x.getD (moves iter) false)) < saEnergy Q n cands budget x
        ∨ draws iter = true)
    · rw [if_pos hacc]
      by_cases hupd : bestUpd bestE (saEnergy Q n cands budget
          (x.set (moves iter) (! x.getD (moves iter) false))) = true
      · rw [if_pos hupd, if_pos hupd]
        by_cases hT : T * coolRate < 1 / 1000000
        · rw [if_pos hT]
          refine ⟨?_, Or.inr (by simp), ?_⟩
          · intro s hs
            rw [List.mem_singleton] at hs
            subst hs
            exact le_refl _
          · intro b hb2
            subst hb2
            rw [bestUpd] at hupd
            exact le_of_lt (of_decide_eq_true hupd)
        · rw [if_neg hT]
          have hb2 : ∀ b, (some (saEnergy Q n cands budget
              (x.set (moves iter) (! x.getD (moves iter) false))) : Option ℚ) = some b →
              saEnergy Q n cands budget
                (x.set (moves iter) (! x.getD (moves iter) false)) = b := by
            intro b hbb
            exact Option.some.inj hbb
          obtain ⟨ihA, ihB, ihC⟩ := ih (iter + 1)
            (x.set (moves iter) (! x.getD (moves iter) false))
            (x.set (moves iter) (! x.getD (moves iter) false))
            (some (saEnergy Q n cands budget
              (x.set (moves iter) (! x.getD (moves iter) false))))
            (T * coolRate) hb2
          refine ⟨?_, ?_, ?_⟩
          · intro s hs
            rcases List.mem_cons.mp hs with rfl | hs2
            · exact ihC _ rfl
            · exact ihA s hs2
          · rcases ihB with h1 | h2
            · exact Or.inr (by rw [h1]; simp)
            · exact Or.inr (List.mem_cons_of_mem _ h2)
          · intro b hbb
            rcases bestE with _ | bprev
            · simp at hbb
            · have hlt : saEnergy Q n cands budget
                  (x.set (moves iter) (! x.getD (moves iter) false)) < bprev := by
                rw [bestUpd] at hupd
                exact of_decide_eq_true hupd
              have hbb2 : bprev = b := Option.some.inj hbb
              subst hbb2
              exact le_trans (ihC _ rfl) (le_of_lt hlt)
      · rw [if_neg hupd, if_neg hupd]
        have hsome : ∃ bprev, bestE = some bprev := by
          rcases bestE with _ | bprev
          · exact absurd rfl hupd
          · exact ⟨bprev, rfl⟩
        obtain ⟨bprev, rfl⟩ := hsome
        have hge : bprev ≤ saEnergy Q n cands budget
            (x.set (moves iter) (! x.getD (moves iter) false)) := by
          rw [bestUpd] at hupd
          exact le_of_not_lt (of_decide_eq_false (Bool.not_eq_true _ ▸ eq_false_of_ne_true hupd))
        by_cases hT : T * coolRate < 1 / 1000000
        · rw [if_pos hT]
          refine ⟨?_, Or.inl rfl, ?_⟩
          · intro s hs
            rw [List.mem_singleton] at hs
            subst hs
            exact le_trans (le_of_eq (hb bprev rfl)) hge
          · intro b hbb
            exact le_of_eq (hb b hbb)
        · rw [if_neg hT]
          obtain ⟨ihA, ihB, ihC⟩ := ih (iter + 1)
            (x.set (moves iter) (! x.getD (moves iter) false))
            bestX (some bprev) (T * coolRate) hb
          refine ⟨?_, ?_, ?_⟩
          · intro s hs
            rcases List.mem_cons.mp hs with rfl | hs2
            · exact le_trans (ihC bprev rfl) hge
            · exact ihA s hs2
          · rcases ihB with h1 | h2
            · exact Or.inl h1
            · exact Or.inr (List.mem_cons_of_mem _ h2)
          · intro b hbb
            exact ihC b hbb
    · rw [if_neg hacc]
      by_cases hT : T * coolRate < 1 / 1000000
      · rw [if_pos hT]
        refine ⟨?_, Or.inl rfl, ?_⟩
        · intro s hs
          simp at hs
        · intro b hbb
          exact le_of_eq (hb b hbb)
      · rw [if_neg hT]
        exact ih (iter + 1) x bestX bestE (T * coolRate) hb

theorem stride_enumFrom_shift {α : Type} (k : ℕ) (l : List α) :
    ∀ j : ℕ,
      ((List.enumFrom (j + k) l).filter (fun q => q.1 % k == 0)).map Prod.snd
        = ((List.enumFrom j l).filter (fun q => q.1 % k == 0)).map Prod.snd := by
  induction l with
  | nil => intro j; simp
  | cons a t ih =>
    intro j
    rw [List.enumFrom_cons, List.enumFrom_cons, List.filter_cons, List.filter_cons]
    have hmod : (((j + k) % k == 0) : Bool) = ((j % k == 0) : Bool) := by
      rw [Nat.add_mod_right]
    rw [hmod]
    have ih2 := ih (j + 1)
    rw [show j + 1 + k = j + k + 1 from by omega] at ih2
    by_cases h : ((j % k == 0) : Bool) = true
    · rw [if_pos h, if_pos h, List.map_cons, List.map_cons, ih2]
    · rw [if_neg h, if_neg h, ih2]

theorem stride_enumFrom_drop {α : Type} (k : ℕ) :
    ∀ (l : List α) (j : ℕ), 0 < j → j ≤ k →
      ((List.enumFrom j l).filter (fun q => q.1 % k == 0)).map Prod.snd
        = (((l.drop (k - j)).enum).filter (fun q => q.1 % k == 0)).map Prod.snd := by
  intro l
  induction l with
  | nil => intro j _ _; simp
  | cons a t ih =>
    intro j hj0 hjk
    rw [List.enumFrom_cons, List.filter_cons]
    by_cases hj : j = k
    · rw [hj]
      have hkeep : ((k % k == 0) : Bool) = true := by simp [Nat.mod_self]
      rw [if_pos hkeep, Nat.sub_self, List.drop_zero, List.enum_cons, List.filter_cons]
      have hkeep0 : (((0 : ℕ) % k == 0) : Bool) = true := by simp
      rw [if_pos hkeep0, List.map_cons, List.map_cons]
      have := stride_enumFrom_shift k t 1
      rw [show 1 + k = k + 1 from by omega] at this
      rw [this]
    · have hjlt : j < k := lt_of_le_of_ne hjk hj
      have hskip : ((j % k == 0) : Bool) = false := by
        rw [Nat.mod_eq_of_lt hjlt]
        simp [Nat.pos_iff_ne_zero.mp hj0]
      rw [if_neg (by rw [hskip]; exact Bool.false_ne_true)]
      rw [ih (j + 1) (by omega) (by omega)]
      have : k - j = (k - (j + 1)) + 1 := by omega
      rw [this, List.drop_succ_cons]

theorem idxStride_cons {α : Type} (k : ℕ) (hk : 0 < k) (a : α) (t : List α) :
    idxStride k (a :: t) = a :: idxStride k (t.drop (k - 1)) := by
  rw [idxStride, idxStride, List.enum_cons, List.filter_cons]
  have hkeep : (((0 : ℕ) % k == 0) : Bool) = true := by simp
  rw [if_pos hkeep, List.map_cons]
  rw [stride_enumFrom_drop k t 1 (by omega) (by omega)]

theorem idxStride_length {α : Type} (k : ℕ) (hk : 0 < k) :
    ∀ (m : ℕ) (l : List α), l.length ≤ m →
      (idxStride k l).length = (l.length + k - 1) / k := by
  intro m
  induction m with
  | zero =>
    intro l hl
    have he : l = [] := List.length_eq_zero.mp (Nat.le_zero.mp hl)
    subst he
    simp only [idxStride, List.enum_nil, List.filter_nil, List.map_nil,
      List.length_nil]
    rw [Nat.div_eq_of_lt (by omega)]
  | succ m ih =>
    intro l hl
    cases l with
    | nil =>
      simp only [idxStride, List.enum_nil, List.filter_nil, List.map_nil,
        List.length_nil]
      rw [Nat.div_eq_of_lt (by omega)]
    | cons a t =>
      rw [idxStride_cons k hk, List.length_cons, List.length_cons]
      have hdl : (t.drop (k - 1)).length = t.length - (k - 1) := List.length_drop _ _
      have hlen : (t.drop (k - 1)).length ≤ m := by
        rw [hdl]
        rw [List.length_cons] at hl
        omega
      rw [ih (t.drop (k - 1)) hlen, hdl]
      rcases le_or_lt (k - 1) t.length with hc | hc
      · have e1 : t.length - (k - 1) + k - 1 = t.length := by omega
        have e2 : t.length + 1 + k - 1 = t.length + k := by omega
        rw [e1, e2, Nat.add_div_right _ hk]
      · have e1 : t.length - (k - 1) + k - 1 = k - 1 := by omega
        have e2 : t.length + 1 + k - 1 = t.length + k := by omega
        rw [e1, e2, Nat.add_div_right _ hk, Nat.div_eq_of_lt (by omega),
          Nat.div_eq_of_lt (by omega)]

theorem idxStride_getD {α : Type} (k : ℕ) (hk : 0 < k) (d : α) :
    ∀ (m : ℕ) (l : List α), l.length ≤ m → ∀ i : ℕ,
      (idxStride k l).getD i d = l.getD (i * k) d := by
  intro m
  induction m with
  | zero =>
    intro l hl i
    have he : l = [] := List.length_eq_zero.mp (Nat.le_zero.mp hl)
    subst he
    simp [idxStride]
  | succ m ih =>
    intro l hl i
    cases l with
    | nil => simp [idxStride]
    | cons a t =>
      rw [idxStride_cons k hk]
      cases i with
      | zero => simp
      | succ i =>
        rw [List.getD_cons_succ]
        have hlen : (t.drop (k - 1)).length ≤ m := by
          rw [List.length_drop]
          rw [List.length_cons] at hl
          omega
        rw [ih (t.drop (k - 1)) hlen i]
        rw [List.getD_eq_getElem?_getD, List.getElem?_drop,
          ← List.getD_eq_getElem?_getD]
        have harith : ∀ p : ℕ, p + k = (k - 1 + p) + 1 := fun p => by omega
        rw [Nat.succ_mul, harith (i * k), List.getD_cons_succ]

/-! ## Claim theorems -/

/-- C10 (confirmed): the greedy solver's output does not depend on its QUBO
matrix argument; `narGreedyBudget(Q, candidates, budget)` reads only the
candidates' energy/cost values and the budget. -/
theorem narGreedyBudget_ignores_Q (Q1 Q2 : ℕ → ℕ → ℚ) (cands : List Candidate)
    (budget : ℚ) :
    narGreedyBudget Q1 cands budget = narGreedyBudget Q2 cands budget := rfl

/-- C6 (confirmed): for every cost/population/energy data, budget, count
target, coverage target and weights, both QUBO constructions are symmetric
off the diagonal: `Q[i][j] = Q[j][i]` for `i ≠ j`. -/
theorem quboQ_offdiag_symm (C P E : ℕ → ℚ) (B K M al ga th mu la : ℚ)
    (i j : ℕ) (hij : i ≠ j) :
    quboQ C P E B K M al ga th mu la i j = quboQ C P E B K M al ga th mu la j i
      ∧ meshQuboQ C P B K M al th mu la i j = meshQuboQ C P B K M al th mu la j i := by
  constructor
  · rw [quboQ, quboQ, if_neg hij, if_neg (Ne.symm hij)]; ring
  · rw [meshQuboQ, meshQuboQ, if_neg hij, if_neg (Ne.symm hij)]; ring

/-- Witness for C6 at a concrete input. -/
theorem quboQ_offdiag_symm_witness :
    quboQ (fun i => (i : ℚ)) (fun i => (i : ℚ) + 1) (fun _ => 3) 7 2 5 1 1 1 1 1 0 1
        = quboQ (fun i => (i : ℚ)) (fun i => (i : ℚ) + 1) (fun _ => 3) 7 2 5 1 1 1 1 1 1 0
      ∧ meshQuboQ (fun i => (i : ℚ)) (fun i => (i : ℚ) + 1) 7 2 5 1 1 1 1 0 1
        = meshQuboQ (fun i => (i : ℚ)) (fun i => (i : ℚ) + 1) 7 2 5 1 1 1 1 1 0 :=
  quboQ_offdiag_symm (fun i => (i : ℚ)) (fun i => (i : ℚ) + 1) (fun _ => 3) 7 2 5 1 1 1 1 1 0 1
    (by decide)

/-- C2 (confirmed): for positive candidate costs and a positive budget, the
selection returned by the greedy solver has total cost within the budget, and
an empty candidate list yields the empty selection vector. -/
theorem narGreedyBudget_within_budget (Q : ℕ → ℕ → ℚ) (cands : List Candidate)
    (budget : ℚ) (hc : ∀ c ∈ cands, 0 < c.cost) (hb : 0 < budget) :
    selectionCost cands (narGreedyBudget Q cands budget) ≤ budget
      ∧ (cands = [] → narGreedyBudget Q cands budget = []) := by
  constructor
  · obtain ⟨d, h1, h2, h3, h4⟩ := greedyGo_spec cands budget (narIdxs cands) 0 []
    have hnodup : d.Nodup := h2.nodup ((narIdxs_perm cands).symm.nodup (List.nodup_range _))
    have hlt : ∀ i ∈ d, i < cands.length := fun i hi =>
      List.mem_range.mp ((narIdxs_perm cands).mem_iff.mp (h2.subset hi))
    have h5 : selectionCost cands (narGreedyBudget Q cands budget)
        = (d.map (fun i => (cands.getD i default).cost)).sum := by
      rw [selectionCost]
      have hcong : ∀ i ∈ Finset.range cands.length,
          (if (narGreedyBudget Q cands budget).getD i 0 = 1
            then (cands.getD i default).cost else 0)
          = if i ∈ d.toFinset then (cands.getD i default).cost else 0 := by
        intro i hi
        rw [narGreedy_getD Q cands budget i (Finset.mem_range.mp hi), h1]
        by_cases hid : i ∈ d
        · simp [hid]
        · simp [hid]
      rw [Finset.sum_congr rfl hcong, Finset.sum_ite_mem]
      rw [Finset.inter_eq_right.mpr
        (fun i hi => Finset.mem_range.mpr (hlt i (List.mem_toFinset.mp hi)))]
      exact List.sum_toFinset _ hnodup
    have h6 := h4 (le_of_lt hb)
    rw [h3] at h6
    rw [h5]
    linarith
  · intro h
    subst h
    rfl

/-- Witness for C2 at a one-candidate input. -/
theorem narGreedyBudget_within_budget_witness :
    selectionCost [{ cost := 3, energy := 1 }]
        (narGreedyBudget (fun _ _ => 0) [{ cost := 3, energy := 1 }] 4) ≤ 4
      ∧ (([{ cost := 3, energy := 1 }] : List Candidate) = [] →
          narGreedyBudget (fun _ _ => 0) [{ cost := 3, energy := 1 }] 4 = []) :=
  narGreedyBudget_within_budget (fun _ _ => 0) [{ cost := 3, energy := 1 }] 4
    (by intro c hcm; rw [List.mem_singleton] at hcm; subst hcm; norm_num)
    (by norm_num)

/-- C3 (confirmed): the greedy solver ranks candidates in descending
energy/cost order with ties kept in original list order (`rankOrd`), accepts
an index exactly when the running total of previously accepted costs plus its
cost fits the budget, and on Scenario B (costs `[10,20,15]`, energies
`[5,8,6]`, budget 25) selects exactly candidates 0 and 2 at total cost 25. -/
theorem narGreedy_rank_behavior (Q : ℕ → ℕ → ℚ) :
    (∀ cands : List Candidate,
        (narIdxs cands).Pairwise (rankOrd (fun i => ratio (cands.getD i default))))
      ∧ (∀ (cands : List Candidate) (budget : ℚ) (L1 L2 : List ℕ) (i : ℕ),
          narIdxs cands = L1 ++ i :: L2 →
          ((narGreedyBudget Q cands budget).getD i 0 = 1 ↔
            (greedyGo cands budget L1 0 []).2 + (cands.getD i default).cost ≤ budget))
      ∧ narGreedyBudget Q scenarioB 25 = [1, 0, 1]
      ∧ selectionCost scenarioB [1, 0, 1] = 25 := by
  refine ⟨narIdxs_pairwise, ?_, ?_, ?_⟩
  · intro cands budget L1 L2 i hsplit
    have hperm := narIdxs_perm cands
    have hnodup : (narIdxs cands).Nodup := hperm.symm.nodup (List.nodup_range _)
    have hi_mem : i ∈ narIdxs cands := by rw [hsplit]; simp
    have hi_lt : i < cands.length := List.mem_range.mp (hperm.mem_iff.mp hi_mem)
    rw [narGreedy_getD Q cands budget i hi_lt]
    rw [hsplit] at hnodup
    have hmid := List.nodup_middle.mp hnodup
    rw [List.nodup_cons] at hmid
    have hiL1 : i ∉ L1 := fun hcon => hmid.1 (List.mem_append.mpr (Or.inl hcon))
    have hiL2 : i ∉ L2 := fun hcon => hmid.1 (List.mem_append.mpr (Or.inr hcon))
    have happ : greedyGo cands budget (narIdxs cands) 0 []
        = greedyGo cands budget (i :: L2) (greedyGo cands budget L1 0 []).2
            (greedyGo cands budget L1 0 []).1 := by
      rw [hsplit, greedyGo_append]
    obtain ⟨d1, hd1, hd1sub, _, _⟩ := greedyGo_spec cands budget L1 0 []
    constructor
    · intro h1
      by_contra hnot
      rw [happ] at h1
      simp only [greedyGo, if_neg hnot] at h1
      obtain ⟨d2, hd2, hd2sub, _, _⟩ := greedyGo_spec cands budget L2
        (greedyGo cands budget L1 0 []).2 (greedyGo cands budget L1 0 []).1
      rw [hd2] at h1
      have hin : i ∈ (greedyGo cands budget L1 0 []).1 ++ d2 := by
        by_contra hmem
        rw [if_neg hmem] at h1
        exact absurd h1 (by decide)
      rcases List.mem_append.mp hin with hin1 | hin2
      · rw [hd1] at hin1
        simp only [List.nil_append] at hin1
        exact hiL1 (hd1sub.subset hin1)
      · exact hiL2 (hd2sub.subset hin2)
    · intro hle
      rw [happ]
      simp only [greedyGo, if_pos hle]
      obtain ⟨d2, hd2, _, _, _⟩ := greedyGo_spec cands budget L2
        ((greedyGo cands budget L1 0 []).2 + (cands.getD i default).cost)
        ((greedyGo cands budget L1 0 []).1 ++ [i])
      rw [hd2, if_pos (by simp)]
  · norm_num [narGreedyBudget, narIdxs, sortIdxByRatio, insertByRatio, ratio,
      greedyGo, scenarioB, List.range_succ]
  · norm_num [selectionCost, scenarioB, Finset.sum_range_succ]

/-- Witness for C3's acceptance characterization: in Scenario B the
first-ranked index 0 is selected because `0 + 10 ≤ 25`. -/
theorem narGreedy_rank_behavior_witness :
    (narGreedyBudget (fun _ _ => 0) scenarioB 25).getD 0 0 = 1 ↔
      (greedyGo scenarioB 25 [] 0 []).2 + (scenarioB.getD 0 default).cost ≤ 25 :=
  (narGreedy_rank_behavior (fun _ _ => 0)).2.1 scenarioB 25 [] [1, 2] 0
    (by norm_num [narIdxs, sortIdxByRatio, insertByRatio, ratio, scenarioB,
      List.range_succ])

/-- C7 (confirmed): when the candidate count exceeds the cap of 1000 and
`k = ceil(n / 1000)`, the reduced candidate list is exactly the candidates at
indices `0, k, 2k, …` (all `ceil(n/k)` of them, which is at most 1000 so the
`slice` never truncates), and every entry of the reduced matrix satisfies
`Q'[i][j] = Q[i·k][j·k]`. -/
theorem downsample_stride {α : Type} (d : α) (cands : List α) (Q : List (List ℚ))
    (k : ℕ) (hn : 1000 < cands.length)
    (hk : k = (cands.length + 1000 - 1) / 1000) :
    (reducedCands 1000 k cands).length = (cands.length + k - 1) / k
      ∧ (reducedCands 1000 k cands).length ≤ 1000
      ∧ (∀ i, i < (reducedCands 1000 k cands).length →
          (reducedCands 1000 k cands).getD i d = cands.getD (i * k) d)
      ∧ (∀ i j, i < (reducedCands 1000 k cands).length →
          j < (reducedCands 1000 k cands).length →
          ((reducedQ Q k (reducedCands 1000 k cands)).getD i []).getD j 0
            = (Q.getD (i * k) []).getD (j * k) 0) := by
  have hk0 : 0 < k := by omega
  have hcap : cands.length ≤ 1000 * k := by omega
  have hstridelen : (idxStride k cands).length = (cands.length + k - 1) / k :=
    idxStride_length k hk0 cands.length cands (le_refl _)
  have hceil_le : (cands.length + k - 1) / k ≤ 1000 := by
    have := (Nat.div_lt_iff_lt_mul hk0
      (x := cands.length + k - 1) (y := 1001)).mpr (by omega)
    omega
  have htake : reducedCands 1000 k cands = idxStride k cands := by
    rw [reducedCands]
    exact List.take_of_length_le (by rw [hstridelen]; exact hceil_le)
  have hlen : (reducedCands 1000 k cands).length = (cands.length + k - 1) / k := by
    rw [htake, hstridelen]
  refine ⟨hlen, by rw [hlen]; exact hceil_le, ?_, ?_⟩
  · intro i _
    rw [htake]
    exact idxStride_getD k hk0 d cands.length cands (le_refl _) i
  · intro i j hi hj
    have hi2 : i < (reducedQ Q k (reducedCands 1000 k cands)).length := by
      rw [reducedQ, List.length_mapIdx]
      exact hi
    rw [List.getD_eq_getElem _ _ hi2]
    simp only [reducedQ, List.getElem_mapIdx]
    have hj2 : j < (List.mapIdx
        (fun j _ => ((Q.getD (i * k) []).getD (j * k) 0))
        (reducedCands 1000 k cands)).length := by
      rw [List.length_mapIdx]
      exact hj
    rw [List.getD_eq_getElem _ _ hj2, List.getElem_mapIdx]

/-- Witness for C7 on 1001 candidates, where the stride is 2. -/
theorem downsample_stride_witness :
    (reducedCands 1000 2 (List.replicate 1001 (0 : ℕ))).length
        = ((List.replicate 1001 (0 : ℕ)).length + 2 - 1) / 2
      ∧ (reducedCands 1000 2 (List.replicate 1001 (0 : ℕ))).length ≤ 1000
      ∧ (∀ i, i < (reducedCands 1000 2 (List.replicate 1001 (0 : ℕ))).length →
          (reducedCands 1000 2 (List.replicate 1001 (0 : ℕ))).getD i 0
            = (List.replicate 1001 (0 : ℕ)).getD (i * 2) 0)
      ∧ (∀ i j, i < (reducedCands 1000 2 (List.replicate 1001 (0 : ℕ))).length →
          j < (reducedCands 1000 2 (List.replicate 1001 (0 : ℕ))).length →
          ((reducedQ [] 2 (reducedCands 1000 2 (List.replicate 1001 (0 : ℕ)))).getD i []).getD j 0
            = (([] : List (List ℚ)).getD (i * 2) []).getD (j * 2) 0) :=
  downsample_stride 0 (List.replicate 1001 (0 : ℕ)) [] 2
    (by rw [List.length_replicate]; omega)
    (by rw [List.length_replicate])

/-- C1 counterexample: with two candidates of cost 1 (all other data zero,
budget penalty weight 1) and the all-ones selection, the quadratic form over
the built matrix is 8 while the spec's claimed value is 6 — the doubled
off-diagonal entries are counted twice by `xᵀQx`. -/
theorem quboQ_quadForm_counterexample :
    quadForm (quboQ (fun _ => 1) (fun _ => 0) (fun _ => 0) 0 0 0 0 0 1 0 0) 2 (fun _ => 1)
      ≠ quboSpecValue (fun _ => 1) (fun _ => 0) (fun _ => 0) 0 0 0 0 0 1 0 0 2 (fun _ => 1) := by
  norm_num [quadForm, quboSpecValue, quboQ, Finset.sum_range_succ, Finset.sum_range_zero]

/-- C1 (corrected): for every binary selection vector, `xᵀQx` over the built
matrix equals the spec's objective-plus-penalties value *plus one extra copy
of each penalty's off-diagonal cross sum* (the source writes the already
doubled coefficient into both `Q[i][j]` and `Q[j][i]`), *minus* the constant
offset `θB² + μK² + λM²` whenever `x₀ = 0` (the source adds the offset onto
`Q[0][0]`, so it participates only when candidate 0 is selected). -/
theorem quboQ_quadForm_identity (C P E : ℕ → ℚ) (B K M al ga th mu la : ℚ)
    (n : ℕ) (x : ℕ → ℚ) (hn : 0 < n) (hx : ∀ i, i < n → x i = 0 ∨ x i = 1) :
    quadForm (quboQ C P E B K M al ga th mu la) n x
      = quboSpecValue C P E B K M al ga th mu la n x
        + th * crossSum C x n + mu * crossSum (fun _ => 1) x n + la * crossSum P x n
        - (1 - x 0) * (th * B ^ 2 + mu * K ^ 2 + la * M ^ 2) := by
  have hx2 : ∀ i ∈ Finset.range n, x i * x i = x i := by
    intro i hi
    rcases hx i (Finset.mem_range.mp hi) with h | h <;> rw [h] <;> ring
  unfold quadForm
  rw [sum_pairs_split n (fun i j => quboQ C P E B K M al ga th mu la i j * x i * x j)]
  have hdiag : ∑ i ∈ Finset.range n, quboQ C P E B K M al ga th mu la i i * x i * x i
      = (∑ i ∈ Finset.range n,
          (C i - al * P i - ga * E i + th * ((C i) ^ 2 - 2 * B * C i)
            + mu * (1 - 2 * K) + la * ((P i) ^ 2 - 2 * M * P i)) * x i)
        + (th * B ^ 2 + mu * K ^ 2 + la * M ^ 2) * x 0 := by
    have step1 : ∀ i ∈ Finset.range n,
        quboQ C P E B K M al ga th mu la i i * x i * x i
          = (C i - al * P i - ga * E i + th * ((C i) ^ 2 - 2 * B * C i)
              + mu * (1 - 2 * K) + la * ((P i) ^ 2 - 2 * M * P i)) * x i
            + (if i = 0 then (th * B ^ 2 + mu * K ^ 2 + la * M ^ 2) * x i else 0) := by
      intro i hi
      rw [quboQ, if_pos rfl]
      have h2 := hx2 i hi
      split_ifs with h0
      · calc (C i - al * P i - ga * E i + th * ((C i) ^ 2 - 2 * B * C i)
              + mu * (1 - 2 * K) + la * ((P i) ^ 2 - 2 * M * P i)
              + (th * B ^ 2 + mu * K ^ 2 + la * M ^ 2)) * x i * x i
            = (C i - al * P i - ga * E i + th * ((C i) ^ 2 - 2 * B * C i)
                + mu * (1 - 2 * K) + la * ((P i) ^ 2 - 2 * M * P i)
                + (th * B ^ 2 + mu * K ^ 2 + la * M ^ 2)) * (x i * x i) := by ring
          _ = (C i - al * P i - ga * E i + th * ((C i) ^ 2 - 2 * B * C i)
                + mu * (1 - 2 * K) + la * ((P i) ^ 2 - 2 * M * P i)
                + (th * B ^ 2 + mu * K ^ 2 + la * M ^ 2)) * x i := by rw [h2]
          _ = _ := by ring
      · calc (C i - al * P i - ga * E i + th * ((C i) ^ 2 - 2 * B * C i)
              + mu * (1 - 2 * K) + la * ((P i) ^ 2 - 2 * M * P i) + 0) * x i * x i
            = (C i - al * P i - ga * E i + th * ((C i) ^ 2 - 2 * B * C i)
                + mu * (1 - 2 * K) + la * ((P i) ^ 2 - 2 * M * P i) + 0) * (x i * x i) := by
              ring
          _ = (C i - al * P i - ga * E i + th * ((C i) ^ 2 - 2 * B * C i)
                + mu * (1 - 2 * K) + la * ((P i) ^ 2 - 2 * M * P i) + 0) * x i := by rw [h2]
          _ = _ := by ring
    rw [Finset.sum_congr rfl step1, Finset.sum_add_distrib]
    congr 1
    rw [Finset.sum_ite_eq' (Finset.range n) 0
      (fun i => (th * B ^ 2 + mu * K ^ 2 + la * M ^ 2) * x i)]
    rw [if_pos (Finset.mem_range.mpr hn)]
  have hoff : ∑ i ∈ Finset.range n, ∑ j ∈ (Finset.range n).erase i,
        quboQ C P E B K M al ga th mu la i j * x i * x j
      = 2 * th * crossSum C x n + 2 * mu * crossSum (fun _ => 1) x n
        + 2 * la * crossSum P x n := by
    have step2 : ∀ i ∈ Finset.range n, ∀ j ∈ (Finset.range n).erase i,
        quboQ C P E B K M al ga th mu la i j * x i * x j
          = 2 * th * ((C i * x i) * (C j * x j))
            + 2 * mu * (((1 : ℚ) * x i) * (1 * x j))
            + 2 * la * ((P i * x i) * (P j * x j)) := by
      intro i _ j hj
      rw [quboQ, if_neg (Ne.symm (Finset.ne_of_mem_erase hj))]
      ring
    have hfac : ∀ (c : ℚ) (f : ℕ → ℚ), c * crossSum f x n
        = ∑ i ∈ Finset.range n, ∑ j ∈ (Finset.range n).erase i,
            c * ((f i * x i) * (f j * x j)) := by
      intro c f
      rw [crossSum, Finset.mul_sum]
      exact Finset.sum_congr rfl (fun i _ => Finset.mul_sum _ _ _)
    calc ∑ i ∈ Finset.range n, ∑ j ∈ (Finset.range n).erase i,
          quboQ C P E B K M al ga th mu la i j * x i * x j
        = ∑ i ∈ Finset.range n, ∑ j ∈ (Finset.range n).erase i,
            (2 * th * ((C i * x i) * (C j * x j))
              + 2 * mu * (((1 : ℚ) * x i) * (1 * x j))
              + 2 * la * ((P i * x i) * (P j * x j))) :=
          Finset.sum_congr rfl (fun i hi => Finset.sum_congr rfl (fun j hj => step2 i hi j hj))
      _ = (∑ i ∈ Finset.range n, ∑ j ∈ (Finset.range n).erase i,
              2 * th * ((C i * x i) * (C j * x j)))
            + (∑ i ∈ Finset.range n, ∑ j ∈ (Finset.range n).erase i,
                2 * mu * (((1 : ℚ) * x i) * (1 * x j)))
            + (∑ i ∈ Finset.range n, ∑ j ∈ (Finset.range n).erase i,
                2 * la * ((P i * x i) * (P j * x j))) := by
          simp only [Finset.sum_add_distrib]
      _ = 2 * th * crossSum C x n + 2 * mu * crossSum (fun _ => 1) x n
            + 2 * la * crossSum P x n := by
          rw [hfac (2 * th) C, hfac (2 * mu) (fun _ => 1), hfac (2 * la) P]
  rw [hdiag, hoff]
  have hdiag2 : ∑ i ∈ Finset.range n,
      (C i - al * P i - ga * E i + th * ((C i) ^ 2 - 2 * B * C i)
        + mu * (1 - 2 * K) + la * ((P i) ^ 2 - 2 * M * P i)) * x i
      = (∑ i ∈ Finset.range n, C i * x i)
        - al * (∑ i ∈ Finset.range n, P i * x i)
        - ga * (∑ i ∈ Finset.range n, E i * x i)
        + th * (∑ i ∈ Finset.range n, (C i) ^ 2 * x i)
        - 2 * B * th * (∑ i ∈ Finset.range n, C i * x i)
        + mu * (∑ i ∈ Finset.range n, x i)
        - 2 * K * mu * (∑ i ∈ Finset.range n, x i)
        + la * (∑ i ∈ Finset.range n, (P i) ^ 2 * x i)
        - 2 * M * la * (∑ i ∈ Finset.range n, P i * x i) := by
    have step3 : ∀ i ∈ Finset.range n,
        (C i - al * P i - ga * E i + th * ((C i) ^ 2 - 2 * B * C i)
          + mu * (1 - 2 * K) + la * ((P i) ^ 2 - 2 * M * P i)) * x i
          = C i * x i - al * (P i * x i) - ga * (E i * x i)
            + th * ((C i) ^ 2 * x i) - 2 * B * th * (C i * x i)
            + mu * x i - 2 * K * mu * x i
            + la * ((P i) ^ 2 * x i) - 2 * M * la * (P i * x i) := by
      intro i _
      ring
    rw [Finset.sum_congr rfl step3]
    simp only [Finset.sum_add_distrib, Finset.sum_sub_distrib, ← Finset.mul_sum]
  rw [hdiag2]
  unfold quboSpecValue
  have eC := sq_sum_binary n C x hx
  have eP := sq_sum_binary n P x hx
  have e1 : (∑ i ∈ Finset.range n, x i) ^ 2
      = (∑ i ∈ Finset.range n, x i) + crossSum (fun _ => 1) x n := by
    have h1 := sq_sum_binary n (fun _ => 1) x hx
    simpa using h1
  linear_combination (-th) * eC + (-mu) * e1 + (-la) * eP

/-- Witness for C1's amended identity at one candidate with nonzero data. -/
theorem quboQ_quadForm_identity_witness :
    quadForm (quboQ (fun _ => 2) (fun _ => 3) (fun _ => 5) 7 11 13 1 1 1 1 1) 1 (fun _ => 1)
      = quboSpecValue (fun _ => 2) (fun _ => 3) (fun _ => 5) 7 11 13 1 1 1 1 1 1 (fun _ => 1)
        + 1 * crossSum (fun _ => 2) (fun _ => 1) 1
        + 1 * crossSum (fun _ => 1) (fun _ => 1) 1
        + 1 * crossSum (fun _ => 3) (fun _ => 1) 1
        - (1 - 1) * (1 * 7 ^ 2 + 1 * 11 ^ 2 + 1 * 13 ^ 2) :=
  quboQ_quadForm_identity (fun _ => 2) (fun _ => 3) (fun _ => 5) 7 11 13 1 1 1 1 1 1
    (fun _ => 1) (by norm_num) (fun _ _ => Or.inr rfl)

/-- C4 counterexample: one candidate of cost 1, `Q = [[1]]`, budget 1, one
iteration, with the Metropolis draw accepting the uphill flip.  The initial
all-zero state (energy 0) is evaluated as `e1`, the accepted state `[1]`
(energy 1) becomes best-known because `bestE` starts at `Infinity`, and the
returned vector has *higher* energy than the evaluated initial state. -/
theorem saRun_uphill_counterexample :
    saEnergy (fun _ _ => 1) 1 [{ cost := 1 }] 1
        (simulatedAnnealingQUBO (fun _ _ => 1) 1 [{ cost := 1 }] 1 1 20 (999 / 1000)
          (fun _ => 0) (fun _ => true))
      > saEnergy (fun _ _ => 1) 1 [{ cost := 1 }] 1 (List.replicate 1 false) := by
  have hrun : simulatedAnnealingQUBO (fun _ _ => 1) 1 [{ cost := 1 }] 1 1 20 (999 / 1000)
      (fun _ => 0) (fun _ => true) = [true] := by
    norm_num [simulatedAnnealingQUBO, saRun, saLoop, bestUpd, List.replicate]
  rw [hrun]
  have h1 : saEnergy (fun _ _ => 1) 1 [{ cost := 1 }] 1 [true] = 1 := by
    simp only [saEnergy, Finset.sum_range_succ, Finset.sum_range_zero,
      List.getD_cons_zero, boolToQ, if_true]
    norm_num
  have h0 : saEnergy (fun _ _ => 1) 1 [{ cost := 1 }] 1 (List.replicate 1 false) = 0 := by
    simp only [saEnergy, Finset.sum_range_succ, Finset.sum_range_zero,
      List.replicate, List.getD_cons_zero, boolToQ]
    norm_num
  rw [h1, h0]
  norm_num

/-- C4 (corrected): the returned vector is best only among the *accepted*
states: its energy is ≤ the energy of every state accepted during the run,
and it is either the initial all-zero state (when nothing was accepted) or
one of the accepted states.  It need not undercut every *evaluated* state —
in particular not the initial all-zero state, which never enters the
best-energy comparison because `bestE` starts at `Infinity` and is only
updated on acceptance. -/
theorem saRun_best_of_accepted (Q : ℕ → ℕ → ℚ) (n : ℕ) (cands : List Candidate)
    (budget : ℚ) (maxIter : ℕ) (T0 coolRate : ℚ) (moves : ℕ → ℕ)
    (draws : ℕ → Bool) :
    (∀ s ∈ (saRun Q n cands budget maxIter T0 coolRate moves draws).2,
        saEnergy Q n cands budget
            (saRun Q n cands budget maxIter T0 coolRate moves draws).1
          ≤ saEnergy Q n cands budget s)
      ∧ ((saRun Q n cands budget maxIter T0 coolRate moves draws).1
            = List.replicate n false
          ∨ (saRun Q n cands budget maxIter T0 coolRate moves draws).1
              ∈ (saRun Q n cands budget maxIter T0 coolRate moves draws).2) := by
  have h := saLoop_best Q n cands budget coolRate moves draws maxIter 0
    (List.replicate n false) (List.replicate n false) none T0
    (by intro b hb; simp at hb)
  exact ⟨h.1, h.2.1⟩

/-- Witness for C4's amended theorem: on the one-iteration uphill run the
returned vector's energy is bounded by the accepted state `[true]`. -/
theorem saRun_best_of_accepted_witness :
    saEnergy (fun _ _ => 1) 1 [{ cost := 1 }] 1
        (saRun (fun _ _ => 1) 1 [{ cost := 1 }] 1 1 20 (999 / 1000)
          (fun _ => 0) (fun _ => true)).1
      ≤ saEnergy (fun _ _ => 1) 1 [{ cost := 1 }] 1 [true] :=
  (saRun_best_of_accepted (fun _ _ => 1) 1 [{ cost := 1 }] 1 1 20 (999 / 1000)
    (fun _ => 0) (fun _ => true)).1 [true]
    (by
      have hacc : (saRun (fun _ _ => 1) 1 [{ cost := 1 }] 1 1 20 (999 / 1000)
          (fun _ => 0) (fun _ => true)).2 = [[true]] := by
        norm_num [saRun, saLoop, bestUpd, List.replicate]
      rw [hacc]
      simp)

/-- C5 counterexample: when a valid result record is followed by a non-record
logging line, the gurobi bridge — one of the claim's cited parsing sites —
fails to parse (it reads only the final line), even though some line is a
structurally valid record.  So the claim's backward scan does not describe
every bridge. -/
theorem gurobiParse_last_line_only :
    gurobiParse [OutLine.record [0], OutLine.log "done"] = none
      ∧ ∃ l ∈ [OutLine.record [0], OutLine.log "done"], (parseLine l).isSome := by
  constructor
  · rfl
  · exact ⟨OutLine.record [0], by simp, by simp [parseLine]⟩

/-- C5 (corrected): only the quantum_optimize bridge scans stdout lines from
the last backward until a structurally valid record is found — it succeeds
whenever some line is a valid record, and trailing logging lines do not
change its result.  The gurobi bridge instead parses only the final line, so
it fails whenever logging output follows the record. -/
theorem bridgeParse_backward_scan :
    (∀ lines : List OutLine, (∃ l ∈ lines, (parseLine l).isSome) →
        (quantumParse lines).isSome)
      ∧ (∀ (lines : List OutLine) (s : String),
          quantumParse (lines ++ [OutLine.log s]) = quantumParse lines)
      ∧ (∀ (lines : List OutLine) (s : String),
          gurobiParse (lines ++ [OutLine.log s]) = none) := by
  refine ⟨?_, ?_, ?_⟩
  · rintro lines ⟨l, hmem, hsome⟩
    exact findSome?_isSome_of_mem parseLine lines.reverse l
      (List.mem_reverse.mpr hmem) hsome
  · intro lines s
    rw [quantumParse, quantumParse, List.reverse_append]
    simp [List.findSome?_cons, parseLine]
  · intro lines s
    rw [gurobiParse, List.getLast?_append]
    simp [parseLine]

/-- Witness for C5's amended theorem: the backward scan succeeds on a stdout
where the record is followed by a logging line. -/
theorem bridgeParse_backward_scan_witness :
    (quantumParse [OutLine.record [2], OutLine.log "diagnostics"]).isSome :=
  bridgeParse_backward_scan.1 [OutLine.record [2], OutLine.log "diagnostics"]
    ⟨OutLine.record [2], by simp, by simp [parseLine]⟩

/-- C8 (confirmed): a request whose polygon is missing or does not have
exactly 4 vertices, whose budget is missing or non-positive, or whose
population center is missing, is rejected as invalid input by both handlers
— for *every* dataset, geometry collaborator and solver backend, i.e. before
any candidate generation or other computation can depend on them. -/
theorem handlers_reject_invalid_input :
    (∀ (sites : List Site) (inPoly : List (ℚ × ℚ) → ℚ × ℚ → Bool)
        (dist : ℚ × ℚ → ℚ × ℚ → ℚ)
        (gre : List (List ℚ) → List FCand → ℚ → List ℕ)
        (gur : List (List ℚ) → List FCand → ℚ → Except String (List ℕ))
        (sa : List (List ℚ) → List FCand → ℚ → List ℕ) (r : FilterReq),
        (r.polygon = none ∨ (∃ p, r.polygon = some p ∧ p.length ≠ 4)
          ∨ r.budget = none ∨ (∃ b, r.budget = some b ∧ b ≤ 0)
          ∨ r.popCenter = none) →
        filterHandler sites inPoly dist gre gur sa r = ApiRes.invalid)
      ∧ (∀ (inPoly : List (ℚ × ℚ) → ℚ × ℚ → Bool)
          (dist : ℚ × ℚ → ℚ × ℚ → ℚ)
          (gre : List (List ℚ) → List Candidate → ℚ → List ℕ)
          (gur : List (List ℚ) → List Candidate → ℚ → Except String (List ℕ))
          (sa : List (List ℚ) → List Candidate → ℚ → List ℕ) (r : MeshReq),
          (r.polygon = none ∨ (∃ p, r.polygon = some p ∧ p.length ≠ 4)
            ∨ r.budget = none ∨ (∃ b, r.budget = some b ∧ b ≤ 0)
            ∨ r.popCenter = none) →
          meshHandler inPoly dist gre gur sa r = ApiRes.invalid) := by
  constructor
  · intro sites inPoly dist gre gur sa r hcond
    have hinv : filterInvalidB r = true := by
      rw [filterInvalidB]
      rcases hcond with h | ⟨p, hp, hlen⟩ | h | ⟨b, hb2, hle⟩ | h
      · rw [h]; simp
      · rw [hp]; simp [hlen]
      · rw [h]; simp
      · rw [hb2]; simp [hle]
      · rw [Option.isNone_iff_eq_none.mpr h]; simp
    simp [filterHandler, hinv]
  · intro inPoly dist gre gur sa r hcond
    have hinv : meshInvalidB r = true := by
      rw [meshInvalidB]
      rcases hcond with h | ⟨p, hp, hlen⟩ | h | ⟨b, hb2, hle⟩ | h
      · rw [h]; simp
      · rw [hp]; simp [hlen]
      · rw [h]; simp
      · rw [hb2]; simp [hle]
      · rw [Option.isNone_iff_eq_none.mpr h]; simp
    simp [meshHandler, hinv]

/-- Witness for C8: a zero budget is rejected by both handlers. -/
theorem handlers_reject_invalid_input_witness :
    filterHandler [] (fun _ _ => false) (fun _ _ => 0) (fun _ _ _ => [])
        (fun _ _ _ => Except.ok []) (fun _ _ _ => [])
        { polygon := some (List.replicate 4 default), budget := some 0,
          popCenter := some default, quboOnly := false, algo := "nar" }
      = ApiRes.invalid
    ∧ meshHandler (fun _ _ => false) (fun _ _ => 0) (fun _ _ _ => [])
        (fun _ _ _ => Except.ok []) (fun _ _ _ => [])
        { polygon := some (List.replicate 4 default), budget := some 0,
          gridArea := some 1, cellSize := some default, country := some "ET",
          popCenter := some default, quboOnly := false, algo := "nar" }
      = ApiRes.invalid :=
  ⟨handlers_reject_invalid_input.1 [] (fun _ _ => false) (fun _ _ => 0)
      (fun _ _ _ => []) (fun _ _ _ => Except.ok []) (fun _ _ _ => []) _
      (Or.inr (Or.inr (Or.inr (Or.inl ⟨0, rfl, le_refl 0⟩)))),
    handlers_reject_invalid_input.2 (fun _ _ => false) (fun _ _ => 0)
      (fun _ _ _ => []) (fun _ _ _ => Except.ok []) (fun _ _ _ => []) _
      (Or.inr (Or.inr (Or.inr (Or.inl ⟨0, rfl, le_refl 0⟩))))⟩

/-- C9 (confirmed): on a valid request whose candidate generation produces
zero candidates, both handlers return the successful empty `grids` result —
for *every* solver backend, so no solver (greedy, annealing, or external) is
invoked and the result does not depend on them. -/
theorem handlers_empty_candidates :
    (∀ (sites : List Site) (inPoly : List (ℚ × ℚ) → ℚ × ℚ → Bool)
        (dist : ℚ × ℚ → ℚ × ℚ → ℚ)
        (gre : List (List ℚ) → List FCand → ℚ → List ℕ)
        (gur : List (List ℚ) → List FCand → ℚ → Except String (List ℕ))
        (sa : List (List ℚ) → List FCand → ℚ → List ℕ)
        (r : FilterReq) (p : List Pt) (b : ℚ) (pc : Pt),
        r.polygon = some p → p.length = 4 → r.budget = some b → 0 < b →
        r.popCenter = some pc →
        filterCandidates sites inPoly dist (closeCoords p) pc = [] →
        filterHandler sites inPoly dist gre gur sa r = ApiRes.grids [])
      ∧ (∀ (inPoly : List (ℚ × ℚ) → ℚ × ℚ → Bool)
          (dist : ℚ × ℚ → ℚ × ℚ → ℚ)
          (gre : List (List ℚ) → List Candidate → ℚ → List ℕ)
          (gur : List (List ℚ) → List Candidate → ℚ → Except String (List ℕ))
          (sa : List (List ℚ) → List Candidate → ℚ → List ℕ)
          (r : MeshReq) (p : List Pt) (b : ℚ) (cs : CellSize) (pc : Pt)
          (co : String),
          r.polygon = some p → p.length = 4 → r.budget = some b → 0 < b →
          (r.gridArea = none ∨ ∃ g2, r.gridArea = some g2 ∧ 0 < g2) →
          r.cellSize = some cs → r.country = some co → r.popCenter = some pc →
          meshCandidates (closeCoords p) cs b pc inPoly dist = [] →
          meshHandler inPoly dist gre gur sa r = ApiRes.grids []) := by
  constructor
  · intro sites inPoly dist gre gur sa r p b pc hp hlen hb hbpos hpc hempty
    have hinv : filterInvalidB r = false := by
      rw [filterInvalidB, hp, hb]
      simp [hpc, hlen, not_le.mpr hbpos]
    simp only [filterHandler, hinv, Bool.false_eq_true, if_false]
    rw [hp, hb, hpc]
    simp only [Option.getD_some]
    rw [hempty]
    simp
  · intro inPoly dist gre gur sa r p b cs pc co hp hlen hb hbpos hga hcs hco hpc hempty
    have hinv : meshInvalidB r = false := by
      rw [meshInvalidB, hp, hb, hcs, hco]
      rcases hga with h | ⟨g2, hg2, hg2pos⟩
      · rw [h]
        simp [hpc, hlen, not_le.mpr hbpos]
      · rw [hg2]
        simp [hpc, hlen, not_le.mpr hbpos, not_le.mpr hg2pos]
    simp only [meshHandler, hinv, Bool.false_eq_true, if_false]
    rw [hp, hb, hcs, hpc]
    simp only [Option.getD_some]
    rw [hempty]
    simp

/-- Witness for C9: an empty dataset (filter mode) and an all-outside
point-in-polygon test (mesh mode) both yield the empty-grids result. -/
theorem handlers_empty_candidates_witness :
    filterHandler [] (fun _ _ => false) (fun _ _ => 0) (fun _ _ _ => [])
        (fun _ _ _ => Except.ok []) (fun _ _ _ => [])
        { polygon := some (List.replicate 4 default), budget := some 1,
          popCenter := some default, quboOnly := false, algo := "nar" }
      = ApiRes.grids []
    ∧ meshHandler (fun _ _ => false) (fun _ _ => 0) (fun _ _ _ => [])
        (fun _ _ _ => Except.ok []) (fun _ _ _ => [])
        { polygon := some (List.replicate 4 default), budget := some 1,
          gridArea := some 1, cellSize := some { price := 1, energy := 1 },
          country := some "ET", popCenter := some default, quboOnly := false,
          algo := "nar" }
      = ApiRes.grids [] :=
  ⟨handlers_empty_candidates.1 [] (fun _ _ => false) (fun _ _ => 0)
      (fun _ _ _ => []) (fun _ _ _ => Except.ok []) (fun _ _ _ => [])
      _ (List.replicate 4 default) 1 default rfl (by simp) rfl (by norm_num)
      rfl rfl,
    handlers_empty_candidates.2 (fun _ _ => false) (fun _ _ => 0)
      (fun _ _ _ => []) (fun _ _ _ => Except.ok []) (fun _ _ _ => [])
      _ (List.replicate 4 default) 1 { price := 1, energy := 1 } default "ET"
      rfl (by simp) rfl (by norm_num) (Or.inr ⟨1, rfl, by norm_num⟩) rfl rfl rfl
      (by simp [meshCandidates])⟩

end QEnergic
